import Mathlib

/-!
Verification of the `Optimize` wrapper (src/z3/src/optimize.rs).

The source is a thin foreign-function wrapper around the Z3 optimizer.  Each
Rust method is embedded as a pure Lean function that returns its result
together with the trace of observable foreign-boundary events it performs
(lock acquisitions/releases and individual foreign calls), with the foreign
engine's responses supplied as oracle arguments.  Panics are modelled by
`Option` (`none` = abort), the engine's own fatal error path by `Except`.
-/

namespace Z3Opt

/-- The foreign tri-state result codes (`Z3_lbool`): `Z3_L_FALSE = -1`. -/
def Z3_L_FALSE : Int := -1

/-- `Z3_L_UNDEF = 0`. -/
def Z3_L_UNDEF : Int := 0

/-- `Z3_L_TRUE = 1`. -/
def Z3_L_TRUE : Int := 1

/-- An opaque expression-term handle (`Ast<'ctx>`), identified abstractly. -/
structure Ast where
  id : Nat
  deriving DecidableEq, Repr

/-- An opaque solution-model handle (`Model<'ctx>`), identified abstractly. -/
structure Model where
  id : Nat
  deriving DecidableEq, Repr

/-- The NUL character, terminator of C strings. -/
def nulChar : Char := Char.ofNat 0

/-- An owned C string: the character content, guaranteed NUL-free by
construction through `CString.new`. -/
structure CString where
  chars : List Char
  deriving DecidableEq, Repr

/-- Embeds `std::ffi::CString::new`: fails (returns `none`, i.e. an error the
caller may `unwrap`) exactly when the input contains an interior NUL byte. -/
def CString.new (s : String) : Option CString :=
  if nulChar ∈ s.data then none else some ⟨s.data⟩

/-- The byte sequence a `CString` presents across the foreign boundary:
its characters followed by the NUL terminator. -/
def CString.withNul (c : CString) : List Char :=
  c.chars ++ [nulChar]

/-- Embeds `i64::to_string` for the soft-constraint weight: the decimal text
form of a signed integer (a leading minus sign for negatives, then the
base-10 digits most significant first). -/
def natDecimalChars (n : Nat) : List Char :=
  if n = 0 then [Char.ofNat 48]
  else (Nat.digits 10 n).reverse.map (fun d => Char.ofNat (48 + d))

/-- Decimal rendering of an `i64` value, as Rust's `weight.to_string()`. -/
def i64ToString (w : Int) : String :=
  if w < 0 then ⟨Char.ofNat 45 :: natDecimalChars (-w).toNat⟩
  else ⟨natDecimalChars w.toNat⟩

/-- Numeric value denoted by a decimal string (used to state that
`i64ToString` really is the decimal form: parsing it back recovers `w`). -/
def charToDigit (c : Char) : Nat := c.toNat - 48

/-- Parse a decimal string (optionally starting with a minus sign) back to
an integer. -/
def decimalVal (s : String) : Int :=
  if s.data.head? = some (Char.ofNat 45) then
    -(Nat.ofDigits 10 (((s.data.drop 1).map charToDigit).reverse) : Int)
  else
    (Nat.ofDigits 10 ((s.data.map charToDigit).reverse) : Int)

/-- One observable event at the foreign boundary: taking or dropping the
process-wide `Z3_MUTEX`, or one individual foreign call. -/
inductive Event where
  | lockAcquire : Event
  | lockRelease : Event
  | mkOptimizeCall : Event
  | incRefCall : Event
  | decRefCall : Event
  | mkParamsCall : Event
  | mkStringSymbolCall (name : List Char) : Event
  | paramsSetUintCall (name : String) (value : Nat) : Event
  | setParamsCall (params : List (String × Nat)) : Event
  | assertCall (a : Ast) : Event
  | assertSoftCall (a : Ast) (weight : List Char) (grp : Option String) : Event
  | maximizeCall (a : Ast) : Event
  | minimizeCall (a : Ast) : Event
  | pushCall : Event
  | popCall : Event
  | checkCall : Event
  | getModelCall : Event
  | toStringCall : Event
  deriving DecidableEq, Repr

/-- The engine-side state that model retrieval depends on: the result code of
the most recent check (if any) and the model the engine would report for it. -/
structure EngineState where
  lastCheck : Option Int
  modelOfLastCheck : Model
  deriving DecidableEq, Repr

/-- The tri-state check outcome (`CheckResult` in lib.rs, used by
`check_get_model`): `Satisfiable` and `Unknown` carry a model,
`Unsatisfiable` carries none. -/
inductive CheckResult where
  | Satisfiable (m : Model) : CheckResult
  | Unsatisfiable : CheckResult
  | Unknown (m : Model) : CheckResult
  deriving DecidableEq, Repr

/-- Modelled from the spec: `Model::of_optimize` (code of this repository
outside `src/`, only its caller `Optimize::get_model` is in `src/`).  Under
the lock it asks the engine for the model of the most recent check; if no
check has been run, or the last check returned `Z3_L_FALSE`, the engine's own
internal-error path fires, which the wrapper does not intercept
(`Except.error`). -/
def Model.of_optimize (st : EngineState) : Except Unit Model × List Event :=
  (match st.lastCheck with
   | some c => if c = Z3_L_FALSE then Except.error () else Except.ok st.modelOfLastCheck
   | none => Except.error (),
   [Event.lockAcquire, Event.getModelCall, Event.lockRelease])

namespace Optimize

/-- Embeds `Optimize::new` (optimize.rs lines 13-23): under one lock
acquisition, create the foreign optimize object and increment its reference
count once. -/
def new : List Event :=
  [Event.lockAcquire, Event.mkOptimizeCall, Event.incRefCall, Event.lockRelease]

/-- Embeds `Optimize::set_timeout` (lines 25-34): under one lock acquisition,
create a transient parameter set, make the `"timeout"` string symbol, write
the single unsigned value into the set, and apply the whole set to the handle
in one call.  `none` models the panic of `CString::new("timeout").unwrap()`. -/
def set_timeout (timeout : Nat) : Option (List Event) := do
  let cstr_timeout ← CString.new "timeout"
  let sym : String := ⟨cstr_timeout.chars⟩
  let params0 : List (String × Nat) := []
  let params := params0 ++ [(sym, timeout)]
  some [Event.lockAcquire, Event.mkParamsCall,
        Event.mkStringSymbolCall (CString.withNul cstr_timeout),
        Event.paramsSetUintCall sym timeout,
        Event.setParamsCall params,
        Event.lockRelease]

/-- Embeds `Optimize::assert` (lines 41-45): one foreign call under the lock. -/
def assert (a : Ast) : List Event :=
  [Event.lockAcquire, Event.assertCall a, Event.lockRelease]

/-- Embeds `Optimize::add_soft` (lines 53-62): render the weight as decimal
text, wrap it in a C string (`none` models the `unwrap` panic on an interior
NUL), and make the single foreign call under the lock with a null grouping
symbol pointer. -/
def add_soft (a : Ast) (weight : Int) : Option (List Event) := do
  let cstr_weight ← CString.new (i64ToString weight)
  let symbol_ptr : Option String := none
  some [Event.lockAcquire,
        Event.assertSoftCall a (CString.withNul cstr_weight) symbol_ptr,
        Event.lockRelease]

/-- Embeds `Optimize::maximize` (lines 69-72). -/
def maximize (a : Ast) : List Event :=
  [Event.lockAcquire, Event.maximizeCall a, Event.lockRelease]

/-- Embeds `Optimize::minimize` (lines 79-82). -/
def minimize (a : Ast) : List Event :=
  [Event.lockAcquire, Event.minimizeCall a, Event.lockRelease]

/-- Embeds `Optimize::push` (lines 95-98). -/
def push : List Event :=
  [Event.lockAcquire, Event.pushCall, Event.lockRelease]

/-- Embeds `Optimize::pop` (lines 110-113). -/
def pop : List Event :=
  [Event.lockAcquire, Event.popCall, Event.lockRelease]

/-- Embeds `Optimize::check` (lines 120-125): run the foreign check under the
lock and compare the returned code with `Z3_L_TRUE`. -/
def check (lbool : Int) : Bool × List Event :=
  (lbool == Z3_L_TRUE, [Event.lockAcquire, Event.checkCall, Event.lockRelease])

/-- Embeds `Optimize::get_model` (lines 152-154): delegates to
`Model::of_optimize` without any interception. -/
def get_model (st : EngineState) : Except Unit Model × List Event :=
  Model.of_optimize st

/-- Embeds `Optimize::check_get_model` (lines 133-145): run the foreign check
under the lock (the guard is dropped before the match), then match the code:
`Z3_L_TRUE` and `Z3_L_UNDEF` eagerly fetch a model via `get_model`,
`Z3_L_FALSE` returns `Unsatisfiable`, and any other code panics (`none`). -/
def check_get_model (lbool : Int) (engineModel : Model) :
    Option CheckResult × List Event :=
  let st : EngineState := ⟨some lbool, engineModel⟩
  let checkEvents := [Event.lockAcquire, Event.checkCall, Event.lockRelease]
  if lbool = Z3_L_TRUE then
    ((get_model st).1.toOption.map CheckResult.Satisfiable,
     checkEvents ++ (get_model st).2)
  else if lbool = Z3_L_FALSE then
    (some CheckResult.Unsatisfiable, checkEvents)
  else if lbool = Z3_L_UNDEF then
    ((get_model st).1.toOption.map CheckResult.Unknown,
     checkEvents ++ (get_model st).2)
  else
    (none, checkEvents)

/-- Embeds `impl fmt::Display for Optimize` (lines 157-170): the foreign
`Z3_optimize_to_string` call is made WITHOUT taking the lock.  The source
then immediately runs `CStr::from_ptr` on the returned pointer (which reads
it via `strlen`), so a null pointer (`foreign = none`) is undefined
behavior/crash — modelled by the outer `none` — and never reaches the
`is_null` test on line 162, which can only see the non-null pointer that
survived `from_ptr` and is therefore dead code.  On a non-null pointer the
bytes are UTF-8 decoded: decode failure yields the recoverable `fmt::Error`
value (`Except.error`), otherwise the decoded string is written. -/
def fmtForeign (foreign : Option (List Nat)) (decode : List Nat → Option (List Char)) :
    Option (Except Unit String) × List Event :=
  (match foreign with
   | none => none
   | some bytes =>
     some (match decode bytes with
       | some cs => Except.ok ⟨cs⟩
       | none => Except.error ()),
   [Event.toStringCall])

/-- Embeds `impl Drop for Optimize` (lines 172-177): one reference-count
decrement under the lock. -/
def drop : List Event :=
  [Event.lockAcquire, Event.decRefCall, Event.lockRelease]

end Optimize

/-- Whether an UTF-8 continuation byte. -/
def isCont (b : Nat) : Bool := 0x80 ≤ b && b < 0xC0

/-- Standard UTF-8 decoding (as performed by Rust's `CStr::to_str`):
rejects overlong encodings, surrogates, and values above `U+10FFFF`. -/
def utf8Decode : List Nat → Option (List Char)
  | [] => some []
  | b0 :: rest =>
    if b0 < 0x80 then
      (utf8Decode rest).map (fun cs => Char.ofNat b0 :: cs)
    else if b0 < 0xC2 then none
    else if b0 < 0xE0 then
      match rest with
      | b1 :: rest1 =>
        if isCont b1 then
          (utf8Decode rest1).map
            (fun cs => Char.ofNat ((b0 - 0xC0) * 0x40 + (b1 - 0x80)) :: cs)
        else none
      | [] => none
    else if b0 < 0xF0 then
      match rest with
      | b1 :: b2 :: rest2 =>
        if (if b0 = 0xE0 then decide (0xA0 ≤ b1) && decide (b1 < 0xC0)
            else if b0 = 0xED then decide (0x80 ≤ b1) && decide (b1 < 0xA0)
            else isCont b1) && isCont b2 then
          (utf8Decode rest2).map
            (fun cs => Char.ofNat ((b0 - 0xE0) * 0x1000 + (b1 - 0x80) * 0x40
              + (b2 - 0x80)) :: cs)
        else none
      | _ => none
    else if b0 < 0xF5 then
      match rest with
      | b1 :: b2 :: b3 :: rest3 =>
        if (if b0 = 0xF0 then decide (0x90 ≤ b1) && decide (b1 < 0xC0)
            else if b0 = 0xF4 then decide (0x80 ≤ b1) && decide (b1 < 0x90)
            else isCont b1) && isCont b2 && isCont b3 then
          (utf8Decode rest3).map
            (fun cs => Char.ofNat ((b0 - 0xF0) * 0x40000 + (b1 - 0x80) * 0x1000
              + (b2 - 0x80) * 0x40 + (b3 - 0x80)) :: cs)
        else none
      | _ => none
    else none

/-- One caller-visible operation on a live `Optimize` handle, with the
engine responses it consumes bundled in. -/
inductive Op where
  | setTimeoutOp (t : Nat) : Op
  | assertOp (a : Ast) : Op
  | addSoftOp (a : Ast) (w : Int) : Op
  | maximizeOp (a : Ast) : Op
  | minimizeOp (a : Ast) : Op
  | pushOp : Op
  | popOp : Op
  | checkOp (lbool : Int) : Op
  | checkGetModelOp (lbool : Int) (m : Model) : Op
  | getModelOp (st : EngineState) : Op
  | displayOp (foreign : Option (List Nat)) : Op
  deriving DecidableEq, Repr

/-- The event trace of one operation (for the two operations that can panic
on C-string construction, the trace of the non-panicking path, proved below
to be the only path). -/
def runOp : Op → List Event
  | Op.setTimeoutOp t => (Optimize.set_timeout t).getD []
  | Op.assertOp a => Optimize.assert a
  | Op.addSoftOp a w => (Optimize.add_soft a w).getD []
  | Op.maximizeOp a => Optimize.maximize a
  | Op.minimizeOp a => Optimize.minimize a
  | Op.pushOp => Optimize.push
  | Op.popOp => Optimize.pop
  | Op.checkOp l => (Optimize.check l).2
  | Op.checkGetModelOp l m => (Optimize.check_get_model l m).2
  | Op.getModelOp st => (Optimize.get_model st).2
  | Op.displayOp f => (Optimize.fmtForeign f utf8Decode).2

/-- The full foreign-boundary trace of a handle's lifetime: construction,
an arbitrary sequence of operations, destruction. -/
def lifetimeTrace (ops : List Op) : List Event :=
  Optimize.new ++ ops.flatMap runOp ++ Optimize.drop

/-- Whether an event is an individual foreign call (as opposed to lock
traffic). -/
def Event.isForeignCall : Event → Bool
  | Event.lockAcquire => false
  | Event.lockRelease => false
  | _ => true

/-- A trace consisting of repeated blocks of the shape
lock-acquire / exactly one foreign call / lock-release: the lock is taken
immediately before each individual foreign call, released immediately after
it, and never held across two foreign calls. -/
def perCallLocked : List Event → Bool
  | [] => true
  | Event.lockAcquire :: e :: Event.lockRelease :: rest =>
    Event.isForeignCall e && perCallLocked rest
  | _ => false

/-- A trace that takes the lock once at the start, releases it once at the
end, and performs only foreign calls in between (possibly several). -/
def oneBlockLocked (evs : List Event) : Bool :=
  match evs with
  | Event.lockAcquire :: rest =>
    match rest.getLast? with
    | some Event.lockRelease => rest.dropLast.all Event.isForeignCall
    | _ => false
  | _ => false

/-- Modelled from the spec: the backtracking depth counter maintained
inside the foreign engine (not mirrored by the wrapper).  A push foreign
call increments it, a pop foreign call at depth 0 is the precondition
violation (`none`), otherwise pop decrements; all other events leave it
unchanged. -/
def engineDepth : List Event → Nat → Option Nat
  | [], d => some d
  | Event.pushCall :: rest, d => engineDepth rest (d + 1)
  | Event.popCall :: rest, d =>
    if d = 0 then none else engineDepth rest (d - 1)
  | _ :: rest, d => engineDepth rest d

/-! ## Helper lemmas -/

lemma natDecimalChars_no_nul (n : Nat) : nulChar ∉ natDecimalChars n := by
  unfold natDecimalChars
  split
  · decide
  · intro hmem
    simp only [List.mem_map, List.mem_reverse] at hmem
    obtain ⟨d, hd, hEq⟩ := hmem
    have hd10 : d < 10 := Nat.digits_lt_base (by norm_num) hd
    interval_cases d <;> exact absurd hEq (by decide)

lemma i64ToString_no_nul (w : Int) : nulChar ∉ (i64ToString w).data := by
  unfold i64ToString
  split
  · intro h
    rcases List.mem_cons.mp h with h1 | h2
    · exact absurd h1 (by decide)
    · exact natDecimalChars_no_nul _ h2
  · exact natDecimalChars_no_nul _

lemma add_soft_eq (a : Ast) (w : Int) :
    Optimize.add_soft a w = some [Event.lockAcquire,
      Event.assertSoftCall a ((i64ToString w).data ++ [nulChar]) none,
      Event.lockRelease] := by
  unfold Optimize.add_soft CString.new
  rw [if_neg (i64ToString_no_nul w)]
  rfl

lemma set_timeout_eq (t : Nat) :
    Optimize.set_timeout t = some [Event.lockAcquire, Event.mkParamsCall,
      Event.mkStringSymbolCall ("timeout".data ++ [nulChar]),
      Event.paramsSetUintCall "timeout" t,
      Event.setParamsCall [("timeout", t)],
      Event.lockRelease] := rfl

lemma charToDigit_ofDigit (d : Nat) (hd : d < 10) :
    charToDigit (Char.ofNat (48 + d)) = d := by
  interval_cases d <;> decide

lemma decimal_chars_val (n : Nat) :
    Nat.ofDigits 10 (((natDecimalChars n).map charToDigit).reverse) = n := by
  unfold natDecimalChars
  split
  case isTrue h =>
    subst h
    decide
  case isFalse h =>
    rw [List.map_map]
    have hmap : (Nat.digits 10 n).reverse.map (charToDigit ∘ fun d => Char.ofNat (48 + d))
        = (Nat.digits 10 n).reverse.map id := by
      apply List.map_congr_left
      intro d hd
      have hd10 : d < 10 := Nat.digits_lt_base (by norm_num) (List.mem_reverse.mp hd)
      simpa using charToDigit_ofDigit d hd10
    rw [hmap, List.map_id, List.reverse_reverse, Nat.ofDigits_digits]

lemma natDecimalChars_all_digits (n : Nat) :
    ∀ c ∈ natDecimalChars n, ∃ d, d < 10 ∧ c = Char.ofNat (48 + d) := by
  unfold natDecimalChars
  split
  · intro c hc
    simp only [List.mem_singleton] at hc
    exact ⟨0, by omega, by simp [hc]⟩
  · intro c hc
    simp only [List.mem_map, List.mem_reverse] at hc
    obtain ⟨d, hd, rfl⟩ := hc
    exact ⟨d, Nat.digits_lt_base (by norm_num) hd, rfl⟩

lemma natDecimalChars_head_ne_minus (n : Nat) :
    (natDecimalChars n).head? ≠ some (Char.ofNat 45) := by
  intro h
  cases hl : natDecimalChars n with
  | nil => rw [hl] at h; simp at h
  | cons c cs =>
    rw [hl] at h
    simp only [List.head?_cons, Option.some.injEq] at h
    obtain ⟨d, hd10, hcd⟩ := natDecimalChars_all_digits n c (hl ▸ List.mem_cons_self c cs)
    rw [hcd] at h
    interval_cases d <;> exact absurd h (by decide)

lemma decimal_roundtrip (w : Int) : decimalVal (i64ToString w) = w := by
  unfold i64ToString decimalVal
  split
  case isTrue hw =>
    rw [if_pos (by rfl)]
    have h3 : (Nat.ofDigits (10 : Int)
          (((natDecimalChars (-w).toNat).map charToDigit).reverse)) = ((-w).toNat : Int) := by
      exact_mod_cast congrArg (Nat.cast (R := Int)) (decimal_chars_val ((-w).toNat))
    show -(Nat.ofDigits (10 : Int)
        (((natDecimalChars (-w).toNat).map charToDigit).reverse)) = w
    rw [h3]
    omega
  case isFalse hw =>
    rw [if_neg (natDecimalChars_head_ne_minus _)]
    have h3 : (Nat.ofDigits (10 : Int)
          (((natDecimalChars w.toNat).map charToDigit).reverse)) = (w.toNat : Int) := by
      exact_mod_cast congrArg (Nat.cast (R := Int)) (decimal_chars_val w.toNat)
    show (Nat.ofDigits (10 : Int)
        (((natDecimalChars w.toNat).map charToDigit).reverse)) = w
    rw [h3]
    omega

lemma runOp_no_ref (op : Op) :
    Event.incRefCall ∉ runOp op ∧ Event.decRefCall ∉ runOp op := by
  cases op <;>
    simp only [runOp, add_soft_eq, set_timeout_eq, Optimize.assert, Optimize.maximize,
      Optimize.minimize, Optimize.push, Optimize.pop, Optimize.check,
      Optimize.check_get_model, Optimize.get_model, Model.of_optimize,
      Optimize.fmtForeign, Option.getD_some] <;>
    constructor <;> intro h <;> (try split_ifs at h) <;> simp_all

lemma flatMap_no_incRef (ops : List Op) :
    (ops.flatMap runOp).count Event.incRefCall = 0 := by
  induction ops with
  | nil => rfl
  | cons op rest ih =>
    simp [List.flatMap_cons, List.count_append, ih,
      List.count_eq_zero.mpr (runOp_no_ref op).1]

lemma flatMap_no_decRef (ops : List Op) :
    (ops.flatMap runOp).count Event.decRefCall = 0 := by
  induction ops with
  | nil => rfl
  | cons op rest ih =>
    simp [List.flatMap_cons, List.count_append, ih,
      List.count_eq_zero.mpr (runOp_no_ref op).2]

lemma engineDepth_append (a b : List Event) (d : Nat) :
    engineDepth (a ++ b) d = (engineDepth a d).bind (engineDepth b) := by
  induction a generalizing d with
  | nil => simp [engineDepth]
  | cons e rest ih =>
    cases e <;> simp only [List.cons_append, engineDepth] <;>
      (try split) <;> simp_all [ih]

lemma runOp_depth (op : Op) (d : Nat) :
    engineDepth (runOp op) d =
      if op = Op.pushOp then some (d + 1)
      else if op = Op.popOp then (if d = 0 then none else some (d - 1))
      else some d := by
  cases op <;>
    simp only [runOp, add_soft_eq, set_timeout_eq, Optimize.assert, Optimize.maximize,
      Optimize.minimize, Optimize.push, Optimize.pop, Optimize.check,
      Optimize.check_get_model, Optimize.get_model, Model.of_optimize,
      Optimize.fmtForeign, Option.getD_some] <;>
    (try split_ifs) <;>
    simp_all [engineDepth]

lemma depth_safe (ops : List Op) (d : Nat)
    (h : ∀ p, p <+: ops → p.count Op.popOp ≤ p.count Op.pushOp + d) :
    (engineDepth (ops.flatMap runOp) d).isSome = true := by
  induction ops generalizing d with
  | nil => simp [engineDepth]
  | cons op rest ih =>
    rw [List.flatMap_cons, engineDepth_append, runOp_depth]
    by_cases hpush : op = Op.pushOp
    · subst hpush
      rw [if_pos rfl, Option.some_bind]
      apply ih
      intro p hp
      have hcons := h (Op.pushOp :: p) (List.cons_prefix_cons.mpr ⟨rfl, hp⟩)
      rw [List.count_cons_self, List.count_cons_of_ne (by simp)] at hcons
      omega
    · by_cases hpop : op = Op.popOp
      · subst hpop
        rw [if_neg hpush, if_pos rfl]
        have h1 := h [Op.popOp] (List.cons_prefix_cons.mpr ⟨rfl, List.nil_prefix⟩)
        have h1' : 1 ≤ d := by simpa using h1
        rw [if_neg (by omega : ¬d = 0), Option.some_bind]
        apply ih
        intro p hp
        have hcons := h (Op.popOp :: p) (List.cons_prefix_cons.mpr ⟨rfl, hp⟩)
        rw [List.count_cons_self, List.count_cons_of_ne (by simp)] at hcons
        omega
      · rw [if_neg hpush, if_neg hpop, Option.some_bind]
        apply ih
        intro p hp
        have hcons := h (op :: p) (List.cons_prefix_cons.mpr ⟨rfl, hp⟩)
        rw [List.count_cons_of_ne (Ne.symm hpop), List.count_cons_of_ne (Ne.symm hpush)]
          at hcons
        omega

lemma depth_pushes (n d : Nat) :
    engineDepth ((List.replicate n Op.pushOp).flatMap runOp) d = some (d + n) := by
  induction n generalizing d with
  | zero => simp [engineDepth]
  | succ k ih =>
    rw [List.replicate_succ, List.flatMap_cons, engineDepth_append, runOp_depth,
      if_pos rfl, Option.some_bind, ih]
    congr 1
    omega

lemma depth_pops (k d : Nat) :
    engineDepth ((List.replicate k Op.popOp).flatMap runOp) d =
      if k ≤ d then some (d - k) else none := by
  induction k generalizing d with
  | zero => simp [engineDepth]
  | succ j ih =>
    rw [List.replicate_succ, List.flatMap_cons, engineDepth_append, runOp_depth,
      if_neg (by decide : ¬(Op.popOp = Op.pushOp)), if_pos rfl]
    by_cases hd : d = 0
    · subst hd
      rw [if_pos rfl]
      simp
    · rw [if_neg hd, Option.some_bind, ih]
      by_cases hj : j ≤ d - 1
      · rw [if_pos hj, if_pos (by omega)]
        congr 1
        omega
      · rw [if_neg hj, if_neg (by omega)]

/-! ## Claim theorems -/

/-- C1: `check_get_model` returns the full tri-state outcome of the engine's
check call: `Z3_L_TRUE` yields `Satisfiable` carrying the engine's model,
`Z3_L_UNDEF` yields `Unknown` also carrying the engine's model, `Z3_L_FALSE`
yields `Unsatisfiable` with no model, and any other foreign result code
panics (`none`) rather than fabricating a result. -/
theorem check_get_model_tristate (lbool : Int) (m : Model) :
    (lbool = Z3_L_TRUE →
      (Optimize.check_get_model lbool m).1 = some (CheckResult.Satisfiable m)) ∧
    (lbool = Z3_L_UNDEF →
      (Optimize.check_get_model lbool m).1 = some (CheckResult.Unknown m)) ∧
    (lbool = Z3_L_FALSE →
      (Optimize.check_get_model lbool m).1 = some CheckResult.Unsatisfiable) ∧
    (lbool ≠ Z3_L_TRUE → lbool ≠ Z3_L_UNDEF → lbool ≠ Z3_L_FALSE →
      (Optimize.check_get_model lbool m).1 = none) := by
  refine ⟨?_, ?_, ?_, ?_⟩
  · intro h
    subst h
    rfl
  · intro h
    subst h
    rfl
  · intro h
    subst h
    rfl
  · intro h1 h2 h3
    simp only [Optimize.check_get_model]
    rw [if_neg h1, if_neg h3, if_neg h2]

/-- Witness for C1: all four branches exercised at concrete result codes. -/
theorem check_get_model_tristate_witness :
    (Optimize.check_get_model 1 ⟨0⟩).1 = some (CheckResult.Satisfiable ⟨0⟩) ∧
    (Optimize.check_get_model 0 ⟨0⟩).1 = some (CheckResult.Unknown ⟨0⟩) ∧
    (Optimize.check_get_model (-1) ⟨0⟩).1 = some CheckResult.Unsatisfiable ∧
    (Optimize.check_get_model 2 ⟨0⟩).1 = none :=
  ⟨(check_get_model_tristate 1 ⟨0⟩).1 rfl,
   (check_get_model_tristate 0 ⟨0⟩).2.1 rfl,
   (check_get_model_tristate (-1) ⟨0⟩).2.2.1 rfl,
   (check_get_model_tristate 2 ⟨0⟩).2.2.2 (by decide) (by decide) (by decide)⟩

/-- C2: `check` returns `true` iff the engine's check outcome is `Z3_L_TRUE`
(Satisfiable), and `false` for both `Z3_L_FALSE` (Unsatisfiable) and
`Z3_L_UNDEF` (Unknown), collapsing the tri-state into a boolean. -/
theorem check_collapses_tristate (lbool : Int) :
    ((Optimize.check lbool).1 = true ↔ lbool = Z3_L_TRUE) ∧
    (Optimize.check Z3_L_FALSE).1 = false ∧
    (Optimize.check Z3_L_UNDEF).1 = false := by
  refine ⟨?_, by decide, by decide⟩
  simp [Optimize.check]

/-- C3: over the whole lifetime of an `Optimize` handle (construction, any
sequence of operations, destruction) the foreign reference count is
incremented exactly once and decremented exactly once, and the decrement is
the last handle-using event of the trace (only the lock release that guards
it follows). -/
theorem refcount_balanced (ops : List Op) :
    (lifetimeTrace ops).count Event.incRefCall = 1 ∧
    (lifetimeTrace ops).count Event.decRefCall = 1 ∧
    ∃ pre, lifetimeTrace ops = pre ++ [Event.decRefCall, Event.lockRelease] ∧
      Event.decRefCall ∉ pre := by
  refine ⟨?_, ?_, ?_⟩
  · have h1 : (Optimize.new).count Event.incRefCall = 1 := by decide
    have h2 : (Optimize.drop).count Event.incRefCall = 0 := by decide
    simp [lifetimeTrace, List.count_append, h1, h2, flatMap_no_incRef]
  · have h1 : (Optimize.new).count Event.decRefCall = 0 := by decide
    have h2 : (Optimize.drop).count Event.decRefCall = 1 := by decide
    simp [lifetimeTrace, List.count_append, h1, h2, flatMap_no_decRef]
  · refine ⟨Optimize.new ++ ops.flatMap runOp ++ [Event.lockAcquire], ?_, ?_⟩
    · simp [lifetimeTrace, Optimize.drop, List.append_assoc]
    · intro hmem
      simp only [List.mem_append] at hmem
      rcases hmem with (h | h) | h
      · revert h
        decide
      · obtain ⟨op, _, hin⟩ := List.mem_flatMap.mp h
        exact (runOp_no_ref op).2 hin
      · revert h
        decide

/-- C4: any sequence of operations in which, at every point, the number of
pops issued so far does not exceed the number of pushes issued so far drives
the engine's backtracking depth without a precondition violation; and for
every n, n pushes followed by n+1 pops is a violation (flagged, not
silently tolerated). -/
theorem push_pop_discipline :
    (∀ ops : List Op,
      (∀ p ∈ ops.inits, p.count Op.popOp ≤ p.count Op.pushOp) →
      (engineDepth (ops.flatMap runOp) 0).isSome = true) ∧
    (∀ n : Nat,
      engineDepth
        ((List.replicate n Op.pushOp ++ List.replicate (n + 1) Op.popOp).flatMap runOp)
        0 = none) := by
  constructor
  · intro ops h
    apply depth_safe
    intro p hp
    have := h p ((List.mem_inits p ops).mpr hp)
    omega
  · intro n
    rw [List.flatMap_append, engineDepth_append, depth_pushes, Option.some_bind,
      depth_pops, if_neg (by omega)]

/-- Witness for C4: a push followed by a pop is safe, and one unmatched pop
violates the precondition. -/
theorem push_pop_discipline_witness :
    (engineDepth ([Op.pushOp, Op.popOp].flatMap runOp) 0).isSome = true ∧
    engineDepth
      ((List.replicate 0 Op.pushOp ++ List.replicate 1 Op.popOp).flatMap runOp)
      0 = none :=
  ⟨push_pop_discipline.1 [Op.pushOp, Op.popOp] (by decide),
   push_pop_discipline.2 0⟩

/-- C5: `add_soft` passes the weight across the foreign boundary as its
NUL-terminated decimal text form (parsing the text back recovers exactly the
weight) and passes the optional grouping symbol as null (`none`). -/
theorem add_soft_decimal_weight (a : Ast) (w : Int) :
    Optimize.add_soft a w = some [Event.lockAcquire,
      Event.assertSoftCall a ((i64ToString w).data ++ [nulChar]) none,
      Event.lockRelease] ∧
    decimalVal (i64ToString w) = w :=
  ⟨add_soft_eq a w, decimal_roundtrip w⟩

/-- C6 (code bug): the claim and the spec say a null string pointer from the
engine is surfaced as a recoverable formatting error, and the code's own
null test at optimize.rs:162 shows that intent — but the source runs
`CStr::from_ptr` (strlen) on the pointer at line 160, BEFORE that test, so a
null pointer is fatal (the embedding's outer `none`) and the `Err` return is
dead code.  On a non-null pointer the claim's UTF-8 half does hold: decode
failure is the recoverable error value, valid bytes are decoded and
written. -/
theorem display_null_fatal :
    (Optimize.fmtForeign none utf8Decode).1 = none ∧
    (Optimize.fmtForeign (some [255]) utf8Decode).1 = some (Except.error ()) ∧
    (Optimize.fmtForeign (some [104, 105]) utf8Decode).1
      = some (Except.ok (String.mk [Char.ofNat 104, Char.ofNat 105])) :=
  ⟨rfl, rfl, rfl⟩

/-- C7 counterexample: the claim says every operation releases the lock
immediately after each individual foreign call and never holds it across
multiple foreign calls, but `set_timeout` performs its four foreign calls
under one lock acquisition, so its trace is not in per-call-locked form. -/
theorem every_op_per_call_locked_cex :
    perCallLocked (runOp (Op.setTimeoutOp 0)) = false := by
  decide

/-- C7 (amended): the single-foreign-call operations (assert, add_soft,
maximize, minimize, push, pop, check, model retrieval, destruction) take the
lock immediately before their one foreign call and release it immediately
after, and `check_get_model` does so for each of its two calls separately;
but `new` and `set_timeout` hold one lock acquisition across their whole
multi-call sequence (two and four foreign calls respectively), and the
Display rendering performs its foreign call without taking the lock at
all. -/
theorem locking_discipline_amended (a : Ast) (w : Int) (t : Nat) (lbool : Int)
    (m : Model) (st : EngineState) (f : Option (List Nat)) :
    perCallLocked (Optimize.assert a) = true ∧
    perCallLocked ((Optimize.add_soft a w).getD []) = true ∧
    perCallLocked (Optimize.maximize a) = true ∧
    perCallLocked (Optimize.minimize a) = true ∧
    perCallLocked Optimize.push = true ∧
    perCallLocked Optimize.pop = true ∧
    perCallLocked (Optimize.check lbool).2 = true ∧
    perCallLocked (Optimize.check_get_model lbool m).2 = true ∧
    perCallLocked (Optimize.get_model st).2 = true ∧
    perCallLocked Optimize.drop = true ∧
    oneBlockLocked Optimize.new = true ∧
    Optimize.new.countP Event.isForeignCall = 2 ∧
    oneBlockLocked ((Optimize.set_timeout t).getD []) = true ∧
    ((Optimize.set_timeout t).getD []).countP Event.isForeignCall = 4 ∧
    (Optimize.fmtForeign f utf8Decode).2 = [Event.toStringCall] := by
  refine ⟨rfl, ?_, rfl, rfl, rfl, rfl, rfl, ?_, rfl, rfl, rfl, rfl, ?_, ?_, rfl⟩
  · rw [add_soft_eq]
    rfl
  · simp only [Optimize.check_get_model]
    split_ifs <;> rfl
  · rw [set_timeout_eq]
    rfl
  · rw [set_timeout_eq]
    rfl

/-- C8: `set_timeout` builds a transient foreign parameter set containing
exactly one named unsigned-integer parameter, named "timeout" with the given
value, applies the whole set to the handle in one call, returns no value and
surfaces no error (`some`, and nothing but events). -/
theorem set_timeout_single_param (t : Nat) :
    Optimize.set_timeout t = some [Event.lockAcquire, Event.mkParamsCall,
      Event.mkStringSymbolCall ("timeout".data ++ [nulChar]),
      Event.paramsSetUintCall "timeout" t,
      Event.setParamsCall [("timeout", t)],
      Event.lockRelease] :=
  set_timeout_eq t

/-- C9: under the precondition that a check has been run (`lastCheck` is
set) and did not return `Z3_L_FALSE`, `get_model` returns the engine's model
for the most recent check; and it is literally `Model::of_optimize` with no
interception or conversion of the engine's error path. -/
theorem get_model_after_check (st : EngineState) (c : Int)
    (h1 : st.lastCheck = some c) (h2 : c ≠ Z3_L_FALSE) :
    (Optimize.get_model st).1 = Except.ok st.modelOfLastCheck ∧
    Optimize.get_model st = Model.of_optimize st := by
  refine ⟨?_, rfl⟩
  simp [Optimize.get_model, Model.of_optimize, h1, h2]

/-- Witness for C9: after a check that returned `Z3_L_TRUE`, the model is
returned. -/
theorem get_model_after_check_witness :
    (Optimize.get_model ⟨some 1, ⟨0⟩⟩).1 = Except.ok (⟨0⟩ : Model) ∧
    Optimize.get_model ⟨some 1, ⟨0⟩⟩ = Model.of_optimize ⟨some 1, ⟨0⟩⟩ :=
  get_model_after_check ⟨some 1, ⟨0⟩⟩ 1 rfl (by decide)

/-- C10: the C-string constructions inside `add_soft` and `set_timeout`
cannot fail: the decimal text of any i64 and the literal "timeout" contain
no interior NUL, so the `unwrap` is unreachable and the operations never
panic on string construction. -/
theorem cstring_construction_total (a : Ast) (w : Int) (t : Nat) :
    (CString.new (i64ToString w)).isSome = true ∧
    (CString.new "timeout").isSome = true ∧
    (Optimize.add_soft a w).isSome = true ∧
    (Optimize.set_timeout t).isSome = true := by
  refine ⟨?_, by decide, ?_, ?_⟩
  · unfold CString.new
    rw [if_neg (i64ToString_no_nul w)]
    rfl
  · rw [add_soft_eq]
    rfl
  · rw [set_timeout_eq]
    rfl

end Z3Opt
